import Mathlib

/-!
# Verification of the minute-book section pipeline

Shallow embedding of the pipeline's core components:
* `SectionProcessor.fix_section_boundaries` (section_processor.py),
* `APIClient._make_request` with retry/backoff (api_client.py),
* the multi-stage JSON extraction `APIClient.parse_json_response` (api_client.py),
* the chunked structure resolver `TextBasedClassifier._identify_structure`
  (classifier.py).

Python integers are modelled as `Int` (arbitrary precision); Python `//`
(floor division) as `Int.fdiv`.  Python's `sorted` with a key is a stable
sort, modelled by `List.insertionSort` on the key order, which is also
stable.
-/

/-- A section dict `{name, startPage, endPage}` as produced by
`_validate_schema` and manipulated by `fix_section_boundaries`. -/
structure Sect where
  name : String
  startPage : Int
  endPage : Int
deriving DecidableEq, Repr

namespace SectionProcessor

/-- Python's `sorted(sections, key=lambda s: s['startPage'])`: a stable sort
by `startPage`. -/
def sortSections (sections : List Sect) : List Sect :=
  List.insertionSort (fun a b => a.startPage ≤ b.startPage) sections

/-- Phase A of `fix_section_boundaries` (source lines 28–54): the `while`
loop over `sorted_sections`.  `current = l[i]`, `next_section = l[i+1]`;
on exact duplicate the loop does `i += 1; continue` WITHOUT appending
`current` (so the earlier element is dropped); otherwise an overlapping
pair is split at `midpoint = (current.endPage + next.startPage) // 2`,
the new `current` is appended and the mutation of `sorted_sections[i+1]`
is carried into the recursive call (`c` is the running `current`). -/
def phaseAGo (c : Sect) : List Sect → List Sect
  | [] => [c]
  | n :: rest =>
    if n.startPage ≤ c.endPage then
      if c.startPage = n.startPage ∧ c.endPage = n.endPage then
        phaseAGo n rest
      else
        let midpoint := Int.fdiv (c.endPage + n.startPage) 2
        { c with endPage := midpoint } :: phaseAGo { n with startPage := midpoint + 1 } rest
    else
      c :: phaseAGo n rest

/-- Phase A on the sorted list: the first element is the initial
`current`. -/
def phaseA : List Sect → List Sect
  | [] => []
  | c :: rest => phaseAGo c rest

/-- Phase B of `fix_section_boundaries` (source lines 56–68): the `for`
loop over `fixed_sections` computing `gap = next.startPage - current.endPage - 1`
and extending `current.endPage` to `next.startPage - 1` when `0 < gap <= 5`.
The loop reads `fixed_sections[i+1]` unmodified (only a local copy of the
current element is rewritten), so it is a one-pass map over adjacent pairs. -/
def phaseB : List Sect → List Sect
  | [] => []
  | [c] => [c]
  | c :: n :: rest =>
    (if 0 < n.startPage - c.endPage - 1 ∧ n.startPage - c.endPage - 1 ≤ 5 then
      { c with endPage := n.startPage - 1 }
    else c) :: phaseB (n :: rest)

/-- `SectionProcessor.fix_section_boundaries` (source lines 12–70). -/
def fix_section_boundaries (sections : List Sect) : List Sect :=
  if sections.isEmpty then sections
  else phaseB (phaseA (sortSections sections))

end SectionProcessor

/-! ## Decoded JSON values

A decoded JSON value, the result of the `json.loads` calls in
api_client.py.  Numbers keep the exact rational value of the literal and
whether the literal was an integer (Python keeps `int` and `float` apart;
the model does not reproduce the rounding of a decimal literal to a
binary double, which no claim observes).  Objects keep their fields in
textual order; lookups take the last occurrence, as a Python dict built
from duplicate keys does. -/
inductive JValue where
  | null
  | bool (b : Bool)
  | num (isInt : Bool) (q : ℚ)
  | str (s : String)
  | arr (elems : List JValue)
  | obj (fields : List (String × JValue))
deriving Repr

namespace JValue

/-- Python dict access for json-decoded objects: with duplicate keys the
last occurrence wins. -/
def dictGet (fields : List (String × JValue)) (key : String) : Option JValue :=
  (fields.reverse.find? (fun kv => kv.1 = key)).map (·.2)

/-- Python truthiness of a json-decoded value (`if candidate:` in
`parse_json_response`). -/
def truthy : JValue → Bool
  | .null => false
  | .bool b => b
  | .num _ q => q != 0
  | .str s => s != ""
  | .arr l => !l.isEmpty
  | .obj l => !l.isEmpty

/-- The Python type name of a json-decoded value, as it appears in
exception messages. -/
def pyTypeName : JValue → String
  | .null => "NoneType"
  | .bool _ => "bool"
  | .num true _ => "int"
  | .num false _ => "float"
  | .str _ => "str"
  | .arr _ => "list"
  | .obj _ => "dict"

mutual

/-- Python `repr` of a json-decoded value (string quoting simplified to
bare single quotes; floats printed as exact rationals).  Only the `str`
and `int` cases are ever reached by the pipeline. -/
def pyRepr : JValue → String
  | .null => "None"
  | .bool true => "True"
  | .bool false => "False"
  | .num true q => toString q.num
  | .num false q => toString q
  | .str s => "\x27" ++ s ++ "\x27"
  | .arr l => "[" ++ pyReprList l ++ "]"
  | .obj l => "\x7b" ++ pyReprFields l ++ "\x7d"

/-- Comma-separated `repr` of the elements of a json-decoded list. -/
def pyReprList : List JValue → String
  | [] => ""
  | [v] => pyRepr v
  | v :: rest => pyRepr v ++ ", " ++ pyReprList rest

/-- Comma-separated `repr` of the fields of a json-decoded dict. -/
def pyReprFields : List (String × JValue) → String
  | [] => ""
  | [(k, v)] => "\x27" ++ k ++ "\x27: " ++ pyRepr v
  | (k, v) :: rest => "\x27" ++ k ++ "\x27: " ++ pyRepr v ++ ", " ++ pyReprFields rest

end

/-- Python `str()` of a json-decoded value, as used for the `name`
coercion in `_validate_schema`: strings are returned as-is, everything
else via its `repr`-like rendering. -/
def pyStr : JValue → String
  | .str s => s
  | v => pyRepr v

/-- Python `int(s)` on a string: optional surrounding whitespace, an
optional sign, then one or more decimal digits (digit-group underscores
are not modelled). -/
def pyIntOfString (s : String) : Option Int :=
  let cs := (s.data.dropWhile Char.isWhitespace).reverse.dropWhile Char.isWhitespace |>.reverse
  let (neg, digits) :=
    match cs with
    | '-' :: rest => (true, rest)
    | '+' :: rest => (false, rest)
    | rest => (false, rest)
  if digits.isEmpty ∨ ¬ digits.all Char.isDigit then none
  else
    let n : Nat := digits.foldl (fun acc c => acc * 10 + (c.toNat - '0'.toNat)) 0
    some (if neg then -(n : Int) else (n : Int))

/-- Python `int()` on a json-decoded value, as used for the page-number
coercions in `_validate_schema`: ints unchanged, floats truncated toward
zero, bools as 0/1, strings parsed as decimal integers; anything else
raises (modelled by `none`). -/
def pyInt : JValue → Option Int
  | .num true q => some q.num
  | .num false q => some (q.num / (q.den : Int))
  | .bool b => some (if b then 1 else 0)
  | .str s => pyIntOfString s
  | _ => none

end JValue

namespace APIClient

/-- `APIClient._exponential_backoff` (api_client.py lines 26–36):
`base_delay * (2 ** attempt)` with `base_delay = 1.5`, modelled exactly in
ℚ (the float computation is exact for every attempt index used). -/
def exponential_backoff (attempt : Nat) : ℚ := (3 / 2 : ℚ) * 2 ^ attempt

/-- The observable outcome of one `requests.post` attempt inside
`_make_request`, scripted per attempt index.

* `resp status body text`: an HTTP response arrived; `text` is
  `response.text` and `body` is the outcome of `response.json()` (only
  consulted on a 200): `Except.ok` a decoded value, `Except.error msg` the
  decode raising.  In the `requests` library a body-decode failure raises
  a `RequestException` subclass, so it is caught by the
  connection-failure handler of the source.
* `timeout`: `requests.exceptions.Timeout` raised by `post`.
* `reqExc msg`: another `requests.exceptions.RequestException` raised by
  `post` (connection-level failure), with `str(e) = msg`.
* `otherExc msg`: any other exception raised by `post`, with
  `str(e) = msg`. -/
inductive Outcome where
  | resp (status : Nat) (body : Except String JValue) (text : String)
  | timeout
  | reqExc (msg : String)
  | otherExc (msg : String)

/-- Whether an attempt outcome is an HTTP response (of any status). -/
def Outcome.isResp : Outcome → Bool
  | .resp _ _ _ => true
  | _ => false

/-- The caller-observable result of one `_make_request` call: the returned
string, the number of loop iterations (attempts) executed, the final
`request_count` (starting from 0), and the `time.sleep` delays performed,
in order. -/
structure RequestTrace where
  retVal : String
  attempts : Nat
  requestCount : Nat
  delays : List ℚ
deriving DecidableEq, Repr

/-- The retry loop of `_make_request` (api_client.py lines 55–102), one
recursive step per `for attempt in range(max_retries)` iteration; the
first argument is the remaining iteration budget `max_retries - attempt`
(zero: the loop exits and the final failure message is returned).
`lastError = none` models `last_error = None`.  On a 200 whose body
decodes to a dict, the `result` field (or `""` if absent) is returned; a
non-string `result` value is returned through its string rendering (the
source returns the raw object there).  A 200 body that is not a dict
makes `result.get` raise `AttributeError`, caught by the generic
`except Exception` handler, which breaks out of the loop. -/
def makeRequestLoop (script : Nat → Outcome) (maxRetries : Nat) :
    Nat → Nat → Option String → Nat → List ℚ → RequestTrace
  | 0, attempt, lastError, count, delays =>
    let le := lastError.getD "None"
    { retVal := "Requête échouée après " ++ toString maxRetries ++ " tentatives: " ++ le,
      attempts := attempt, requestCount := count, delays := delays }
  | fuel + 1, attempt, _lastError, count, delays =>
      match script attempt with
      | .resp status body text =>
        if status = 200 then
          match body with
          | .ok (.obj fields) =>
            { retVal :=
                match JValue.dictGet fields "result" with
                | some (.str s) => s
                | some w => w.pyStr
                | none => ""
              attempts := attempt + 1, requestCount := count + 1, delays := delays }
          | .ok v =>
            { retVal := "Requête échouée après " ++ toString maxRetries ++
                " tentatives: Erreur inattendue: \x27" ++ v.pyTypeName ++
                "\x27 object has no attribute \x27get\x27",
              attempts := attempt + 1, requestCount := count + 1, delays := delays }
          | .error msg =>
            -- `response.json()` raised a `RequestException` subclass
            let le := "Requête échouée: " ++ msg
            if attempt < maxRetries - 1 then
              makeRequestLoop script maxRetries fuel (attempt + 1) (some le) (count + 1)
                (delays ++ [exponential_backoff attempt])
            else
              makeRequestLoop script maxRetries fuel (attempt + 1) (some le) (count + 1) delays
        else if status = 500 ∨ status = 502 ∨ status = 503 ∨ status = 504 then
          let le := s!"Erreur serveur {status}"
          if attempt < maxRetries - 1 then
            makeRequestLoop script maxRetries fuel (attempt + 1) (some le) (count + 1)
              (delays ++ [exponential_backoff attempt])
          else
            { retVal := s!"Erreur API: {status} - " ++ text.take 100,
              attempts := attempt + 1, requestCount := count + 1, delays := delays }
        else
          { retVal := s!"Erreur API: {status} - " ++ text.take 100,
            attempts := attempt + 1, requestCount := count + 1, delays := delays }
      | .timeout =>
        let le := "Délai d\x27attente dépassé"
        if attempt < maxRetries - 1 then
          makeRequestLoop script maxRetries fuel (attempt + 1) (some le) count
            (delays ++ [exponential_backoff attempt])
        else
          makeRequestLoop script maxRetries fuel (attempt + 1) (some le) count delays
      | .reqExc msg =>
        let le := "Requête échouée: " ++ msg
        if attempt < maxRetries - 1 then
          makeRequestLoop script maxRetries fuel (attempt + 1) (some le) count
            (delays ++ [exponential_backoff attempt])
        else
          makeRequestLoop script maxRetries fuel (attempt + 1) (some le) count delays
      | .otherExc msg =>
        { retVal := "Requête échouée après " ++ toString maxRetries ++
            " tentatives: Erreur inattendue: " ++ msg,
          attempts := attempt + 1, requestCount := count, delays := delays }


/-- `APIClient._make_request` observed through a script of per-attempt
outcomes, on a fresh client (`request_count = 0`). -/
def make_request (maxRetries : Nat) (script : Nat → Outcome) : RequestTrace :=
  makeRequestLoop script maxRetries maxRetries 0 none 0 []

/-- The number of indices in `[a, a + n)` whose scripted outcome is an
HTTP response. -/
def countRespFrom (script : Nat → Outcome) (a : Nat) : Nat → Nat
  | 0 => 0
  | n + 1 => (if (script a).isResp then 1 else 0) + countRespFrom script (a + 1) n

end APIClient

namespace PyJson

/-- JSON whitespace (RFC 8259 and the `json` module): space, tab,
newline, carriage return. -/
def isJsonWs (c : Char) : Bool := c == ' ' || c == '\t' || c == '\n' || c == '\r'

/-- Skip JSON whitespace. -/
def skipWs (cs : List Char) : List Char := cs.dropWhile isJsonWs

/-- Numeric value of a run of decimal digits. -/
def digitsToNat (ds : List Char) : Nat :=
  ds.foldl (fun a c => a * 10 + (c.toNat - '0'.toNat)) 0

/-- Value of a hex digit, if any. -/
def hexVal (c : Char) : Option Nat :=
  if '0' ≤ c ∧ c ≤ '9' then some (c.toNat - '0'.toNat)
  else if 'a' ≤ c ∧ c ≤ 'f' then some (c.toNat - 'a'.toNat + 10)
  else if 'A' ≤ c ∧ c ≤ 'F' then some (c.toNat - 'A'.toNat + 10)
  else none

/-- A `\uXXXX` escape for a low surrogate at the head of the input:
returns its code. -/
def decodeLowSurrogate (cs : List Char) : Option Nat :=
  match cs with
  | '\\' :: 'u' :: g1 :: g2 :: g3 :: g4 :: _ =>
    match hexVal g1, hexVal g2, hexVal g3, hexVal g4 with
    | some a2, some b2, some c2, some d2 =>
      let code2 := ((a2 * 16 + b2) * 16 + c2) * 16 + d2
      if 0xDC00 ≤ code2 ∧ code2 ≤ 0xDFFF then some code2 else none
    | _, _, _, _ => none
  | _ => none

/-- Body of a JSON string literal, after the opening quote: returns the
decoded characters and the input after the closing quote.  Escapes follow
the `json` module (strict mode): the named escapes, `\uXXXX` with
surrogate-pair combination (an unpaired surrogate, which `Char` cannot
hold, decodes to U+FFFD), and unescaped control characters are
rejected. -/
def parseStringAux : Nat → List Char → List Char → Option (List Char × List Char)
  | 0, _, _ => none
  | _ + 1, _, [] => none
  | _ + 1, acc, '"' :: rest => some (acc.reverse, rest)
  | fuel + 1, acc, '\\' :: e :: rest =>
    if e = '"' then parseStringAux fuel ('"' :: acc) rest
    else if e = '\\' then parseStringAux fuel ('\\' :: acc) rest
    else if e = '/' then parseStringAux fuel ('/' :: acc) rest
    else if e = 'b' then parseStringAux fuel ('\x08' :: acc) rest
    else if e = 'f' then parseStringAux fuel ('\x0c' :: acc) rest
    else if e = 'n' then parseStringAux fuel ('\n' :: acc) rest
    else if e = 'r' then parseStringAux fuel ('\r' :: acc) rest
    else if e = 't' then parseStringAux fuel ('\t' :: acc) rest
    else if e = 'u' then
      match rest with
      | h1 :: h2 :: h3 :: h4 :: rest2 =>
        match hexVal h1, hexVal h2, hexVal h3, hexVal h4 with
        | some a, some b, some c, some d =>
          let code := ((a * 16 + b) * 16 + c) * 16 + d
          if 0xD800 ≤ code ∧ code ≤ 0xDBFF then
            match decodeLowSurrogate rest2 with
            | some code2 =>
              let scalar := 0x10000 + (code - 0xD800) * 0x400 + (code2 - 0xDC00)
              parseStringAux fuel (Char.ofNat scalar :: acc) (rest2.drop 6)
            | none => parseStringAux fuel ('\uFFFD' :: acc) rest2
          else if 0xDC00 ≤ code ∧ code ≤ 0xDFFF then
            parseStringAux fuel ('\uFFFD' :: acc) rest2
          else
            parseStringAux fuel (Char.ofNat code :: acc) rest2
        | _, _, _, _ => none
      | _ => none
    else none
  | fuel + 1, acc, c :: rest =>
    if c.toNat < 0x20 then none else parseStringAux fuel (c :: acc) rest

/-- A JSON number literal at the head of the input, per the `json`
module regular expression `-?(0|[1-9]\d*)(\.\d+)?([eE][+-]?\d+)?`
(the nonstandard NaN/Infinity literals are not modelled).  Returns the
value and whether the literal is an integer. -/
def parseNumber (cs : List Char) : Option ((Bool × ℚ) × List Char) :=
  let negAndRest : Bool × List Char :=
    match cs with
    | '-' :: r => (true, r)
    | r => (false, r)
  let neg := negAndRest.1
  let cs1 := negAndRest.2
  match cs1 with
  | [] => none
  | c :: cs2 =>
    if ¬ c.isDigit then none
    else
      let ipartRest : List Char × List Char :=
        if c = '0' then ([c], cs2)
        else (cs1.takeWhile Char.isDigit, cs1.dropWhile Char.isDigit)
      let ipart := ipartRest.1
      let rest1 := ipartRest.2
      let fracRest : List Char × List Char :=
        match rest1 with
        | '.' :: r =>
          let ds := r.takeWhile Char.isDigit
          if ds.isEmpty then ([], rest1) else (ds, r.dropWhile Char.isDigit)
        | _ => ([], rest1)
      let fdigits := fracRest.1
      let rest2 := fracRest.2
      let expRest : Option Int × List Char :=
        match rest2 with
        | e :: r =>
          if e = 'e' ∨ e = 'E' then
            let signRest : Int × List Char :=
              match r with
              | '+' :: rr => (1, rr)
              | '-' :: rr => (-1, rr)
              | rr => (1, rr)
            let ds := signRest.2.takeWhile Char.isDigit
            if ds.isEmpty then (none, rest2)
            else (some (signRest.1 * (digitsToNat ds : Int)), signRest.2.dropWhile Char.isDigit)
          else (none, rest2)
        | [] => (none, rest2)
      let isInt : Bool := fdigits.isEmpty && expRest.1.isNone
      let q : ℚ :=
        if isInt then
          ((if neg then -(digitsToNat ipart : Int) else (digitsToNat ipart : Int)) : ℚ)
        else
          let mant : ℚ := (digitsToNat ipart : ℚ) +
            (digitsToNat fdigits : ℚ) / (10 : ℚ) ^ fdigits.length
          let mag : ℚ :=
            match expRest.1 with
            | some e => mant * (10 : ℚ) ^ e
            | none => mant
          if neg then -mag else mag
      some ((isInt, q), expRest.2)

/-- What the recursive JSON parser is asked to produce: one value, the
items of an array (up to `]`), or the fields of an object (up to the
closing brace). -/
inductive ParseMode where
  | value
  | arrItems
  | objItems

/-- The result of one recursive JSON parse step, by mode. -/
inductive ParseOut where
  | val (v : JValue)
  | items (l : List JValue)
  | fields (l : List (String × JValue))

/-- The recursive descent of `json.loads`, fuelled (structural on the
fuel, so that proofs can evaluate it).  `value` mode parses one JSON
value at the head (leading whitespace already skipped); `arrItems` and
`objItems` parse comma-separated items up to the closing delimiter.  The
initial fuel of `loads` is generous: every step that consumes fuel also
consumes at least one input character. -/
def parseStep : Nat → ParseMode → List Char → Option (ParseOut × List Char)
  | 0, _, _ => none
  | _ + 1, .value, [] => none
  | fuel + 1, .value, c :: cs =>
    if c = '"' then
      (parseStringAux (fuel + 1) [] cs).map (fun p => (.val (.str (String.mk p.1)), p.2))
    else if c = '[' then
      match skipWs cs with
      | ']' :: rest => some (.val (.arr []), rest)
      | cs2 =>
        match parseStep fuel .arrItems cs2 with
        | some (.items l, rest) => some (.val (.arr l), rest)
        | _ => none
    else if c = '\x7b' then
      match skipWs cs with
      | '\x7d' :: rest => some (.val (.obj []), rest)
      | cs2 =>
        match parseStep fuel .objItems cs2 with
        | some (.fields l, rest) => some (.val (.obj l), rest)
        | _ => none
    else if c = 't' then
      match cs with
      | 'r' :: 'u' :: 'e' :: rest => some (.val (.bool true), rest)
      | _ => none
    else if c = 'f' then
      match cs with
      | 'a' :: 'l' :: 's' :: 'e' :: rest => some (.val (.bool false), rest)
      | _ => none
    else if c = 'n' then
      match cs with
      | 'u' :: 'l' :: 'l' :: rest => some (.val .null, rest)
      | _ => none
    else
      (parseNumber (c :: cs)).map (fun p => (.val (.num p.1.1 p.1.2), p.2))
  | fuel + 1, .arrItems, cs =>
    match parseStep fuel .value cs with
    | some (.val v, rest) =>
      (match skipWs rest with
      | ',' :: rest2 =>
        match parseStep fuel .arrItems (skipWs rest2) with
        | some (.items l, rest3) => some (.items (v :: l), rest3)
        | _ => none
      | ']' :: rest2 => some (.items [v], rest2)
      | _ => none)
    | _ => none
  | fuel + 1, .objItems, cs =>
    match cs with
    | '"' :: cs1 =>
      match parseStringAux (fuel + 1) [] cs1 with
      | none => none
      | some (key, rest) =>
        match skipWs rest with
        | ':' :: rest2 =>
          match parseStep fuel .value (skipWs rest2) with
          | some (.val v, rest3) =>
            (match skipWs rest3 with
            | ',' :: rest4 =>
              match parseStep fuel .objItems (skipWs rest4) with
              | some (.fields l, rest5) => some (.fields ((String.mk key, v) :: l), rest5)
              | _ => none
            | '\x7d' :: rest4 => some (.fields [(String.mk key, v)], rest4)
            | _ => none)
          | _ => none
        | _ => none
    | _ => none

/-- Python `json.loads`: skip surrounding whitespace, parse one value,
require the input to be exhausted; `none` models `JSONDecodeError`. -/
def loads (s : String) : Option JValue :=
  match parseStep (2 * s.length + 8) .value (skipWs s.data) with
  | some (.val v, rest) => if (skipWs rest).isEmpty then some v else none
  | _ => none

end PyJson

namespace APIClient

/-- Python whitespace as stripped by `str.strip()` (ASCII part; exotic
unicode spaces are not modelled). -/
def isPyWs (c : Char) : Bool :=
  c == ' ' || c == '\t' || c == '\n' || c == '\r' || c == '\x0b' || c == '\x0c'

/-- The regex class `\s` for the patterns of api_client.py (ASCII part). -/
def isReWs (c : Char) : Bool :=
  c == ' ' || c == '\t' || c == '\n' || c == '\r' || c == '\x0b' || c == '\x0c'

/-- Case-insensitive literal prefix match (`re.IGNORECASE` over ASCII):
returns the input after the literal. -/
def stripPrefixCI : List Char → List Char → Option (List Char)
  | [], cs => some cs
  | _ :: _, [] => none
  | p :: ps, c :: cs => if p.toLower = c.toLower then stripPrefixCI ps cs else none

/-- After the opening brace of a fenced-block pattern: resolve the
non-greedy `.*?\}` followed by (`\s*` when `withWs`) and the closing
delimiter.  The first closing brace whose tail matches ends the capture
(non-greedy semantics); returns the captured content between the braces
and the input after the whole match.  Greedy `\s*` before a delimiter
that starts with a non-space character matches exactly the maximal
whitespace run, so `dropWhile` is faithful. -/
def fenceGroupClose (closeDelim : List Char) (withWs : Bool) :
    List Char → Option (List Char × List Char)
  | [] => none
  | c :: cs =>
    if c = '\x7d' then
      let tail := if withWs then cs.dropWhile isReWs else cs
      match stripPrefixCI closeDelim tail with
      | some rest => some ([], rest)
      | none => (fenceGroupClose closeDelim withWs cs).map (fun p => (c :: p.1, p.2))
    else
      (fenceGroupClose closeDelim withWs cs).map (fun p => (c :: p.1, p.2))

/-- One attempt to match a fenced pattern at the head of the input:
the opening delimiter (case-insensitively), `\s*` when `withWs`, the
captured group `(\{.*?\})`, `\s*` when `withWs`, the closing delimiter.
Returns the captured group (braces included) and the input after the
match. -/
def matchFenceAt (openDelim : List Char) (withWs : Bool) (closeDelim : List Char)
    (cs : List Char) : Option (List Char × List Char) :=
  match stripPrefixCI openDelim cs with
  | none => none
  | some cs1 =>
    let cs2 := if withWs then cs1.dropWhile isReWs else cs1
    match cs2 with
    | '\x7b' :: body =>
      (fenceGroupClose closeDelim withWs body).map
        (fun p => ('\x7b' :: (p.1 ++ ['\x7d']), p.2))
    | _ => none

/-- `re.findall` for a fenced pattern (DOTALL, IGNORECASE): scan left to
right, collecting the captured group of each non-overlapping match. -/
def findallFence (openDelim : List Char) (withWs : Bool) (closeDelim : List Char) :
    Nat → List Char → List (List Char)
  | 0, _ => []
  | _ + 1, [] => []
  | fuel + 1, c :: cs =>
    match matchFenceAt openDelim withWs closeDelim (c :: cs) with
    | some (g, rest) => g :: findallFence openDelim withWs closeDelim fuel rest
    | none => findallFence openDelim withWs closeDelim fuel cs

/-- All captured groups of one pattern over a text, tried through
`json.loads` in order; the first parse success wins (the inner loop of
`_extract_from_code_blocks`). -/
def firstParsedGroup (openDelim : List Char) (withWs : Bool) (closeDelim : List Char)
    (t : String) : Option JValue :=
  (findallFence openDelim withWs closeDelim t.data.length t.data).findSome?
    (fun g => PyJson.loads (String.mk g))

/-- `_extract_from_code_blocks` (api_client.py lines 200–220): the three
patterns, in order
`` ```json\s*(\{.*?\})\s*``` ``, `` ```\s*(\{.*?\})\s*``` ``, `` `(\{.*?\})` ``;
for each, every match is tried and the first group that parses is
returned. -/
def extract_from_code_blocks (t : String) : Option JValue :=
  (firstParsedGroup "```json".data true "```".data t).orElse fun _ =>
    (firstParsedGroup "```".data true "```".data t).orElse fun _ =>
      firstParsedGroup "`".data false "`".data t

/-- The scanning loop of `_extract_by_brackets` (api_client.py lines
231–262), starting at the first opening brace: tracks nesting depth,
in-string and escape state; when the depth returns to zero the captured
span is parsed, a parse failure yielding `none` (the scan does not
resume). -/
def bracketScan : List Char → Nat → Bool → Bool → List Char → Option JValue
  | _, _, _, _, [] => none
  | acc, depth, inString, escapeNext, c :: cs =>
    if escapeNext then bracketScan (c :: acc) depth inString false cs
    else if c = '\\' then bracketScan (c :: acc) depth inString true cs
    else if c = '"' then bracketScan (c :: acc) depth (!inString) escapeNext cs
    else if !inString && c = '\x7b' then
      bracketScan (c :: acc) (depth + 1) inString escapeNext cs
    else if !inString && c = '\x7d' then
      if depth = 1 then PyJson.loads (String.mk (c :: acc).reverse)
      else bracketScan (c :: acc) (depth - 1) inString escapeNext cs
    else bracketScan (c :: acc) depth inString escapeNext cs

/-- `_extract_by_brackets` (api_client.py lines 222–262). -/
def extract_by_brackets (t : String) : Option JValue :=
  match t.data.dropWhile (· != '\x7b') with
  | [] => none
  | cs => bracketScan [] 0 false false cs

/-- One `re.sub` pass replacing `,\s*X` by `X` for a closing delimiter
`X` (the first two fixups of `_attempt_recovery`).  The scan resumes
after each replacement, as `re.sub` does. -/
def fixTrailingCommaAux (close : Char) : Nat → List Char → List Char
  | 0, l => l
  | _ + 1, [] => []
  | fuel + 1, ',' :: cs =>
    match cs.dropWhile isReWs with
    | c :: rest2 =>
      if c = close then close :: fixTrailingCommaAux close fuel rest2
      else ',' :: fixTrailingCommaAux close fuel cs
    | [] => ',' :: fixTrailingCommaAux close fuel cs
  | fuel + 1, c :: cs => c :: fixTrailingCommaAux close fuel cs

/-- The pass over a whole text (the fuel covers the scan, which consumes
at least one character per step). -/
def fixTrailingComma (close : Char) (l : List Char) : List Char :=
  fixTrailingCommaAux close l.length l

/-- One `re.sub` pass replacing `'([^']*)':` by `"\1":` (the
single-quoted-key fixup of `_attempt_recovery`). -/
def fixSingleQuotedKeysAux : Nat → List Char → List Char
  | 0, l => l
  | _ + 1, [] => []
  | fuel + 1, '\x27' :: cs =>
    match cs.dropWhile (· != '\x27') with
    | '\x27' :: ':' :: rest =>
      '"' :: (cs.takeWhile (· != '\x27') ++ '"' :: ':' :: fixSingleQuotedKeysAux fuel rest)
    | _ => '\x27' :: fixSingleQuotedKeysAux fuel cs
  | fuel + 1, c :: cs => c :: fixSingleQuotedKeysAux fuel cs

/-- The pass over a whole text. -/
def fixSingleQuotedKeys (l : List Char) : List Char :=
  fixSingleQuotedKeysAux l.length l

/-- One `re.sub` pass replacing `//.*?\n` by a newline (DOTALL; the
non-greedy run ends at the first newline; without a newline there is no
match). -/
def fixLineCommentsAux : Nat → List Char → List Char
  | 0, l => l
  | _ + 1, [] => []
  | fuel + 1, '/' :: '/' :: cs =>
    match cs.dropWhile (· != '\n') with
    | '\n' :: rest => '\n' :: fixLineCommentsAux fuel rest
    | _ => '/' :: fixLineCommentsAux fuel ('/' :: cs)
  | fuel + 1, c :: cs => c :: fixLineCommentsAux fuel cs

/-- The pass over a whole text. -/
def fixLineComments (l : List Char) : List Char :=
  fixLineCommentsAux l.length l

/-- The index just past the first `*/` in the input, if any. -/
def blockCommentEndIdx : List Char → Option Nat
  | '*' :: '/' :: _ => some 2
  | _ :: cs => (blockCommentEndIdx cs).map (· + 1)
  | [] => none

/-- One `re.sub` pass replacing `/\*.*?\*/` by the empty string (DOTALL;
the non-greedy run ends at the first `*/`; without it there is no
match). -/
def fixBlockCommentsAux : Nat → List Char → List Char
  | 0, l => l
  | _ + 1, [] => []
  | fuel + 1, '/' :: '*' :: cs =>
    match blockCommentEndIdx cs with
    | some k => fixBlockCommentsAux fuel (cs.drop k)
    | none => '/' :: fixBlockCommentsAux fuel ('*' :: cs)
  | fuel + 1, c :: cs => c :: fixBlockCommentsAux fuel cs

/-- The pass over a whole text. -/
def fixBlockComments (l : List Char) : List Char :=
  fixBlockCommentsAux l.length l

/-- `_attempt_recovery` (api_client.py lines 264–287): the five textual
fixups, applied in order over the whole text, then a direct parse of the
repaired text, then the bracket scan on it. -/
def attempt_recovery (t : String) : Option JValue :=
  let cleaned := String.mk (fixBlockComments (fixLineComments (fixSingleQuotedKeys
    (fixTrailingComma ']' (fixTrailingComma '\x7d' t.data)))))
  (PyJson.loads cleaned).orElse fun _ => extract_by_brackets cleaned

/-- Validation of one element of the `sections` list (api_client.py
lines 320–350): must be a dict carrying the three keys; `name` through
`str()` (total), the pages through `int()` (may raise); elements with
`startPage < 1` or `endPage < startPage` are dropped. -/
def validateElement (v : JValue) : Option Sect :=
  match v with
  | .obj fields =>
    match JValue.dictGet fields "name", JValue.dictGet fields "startPage",
        JValue.dictGet fields "endPage" with
    | some nv, some sv, some ev =>
      match sv.pyInt, ev.pyInt with
      | some sp, some ep =>
        if sp < 1 then none
        else if ep < sp then none
        else some { name := nv.pyStr, startPage := sp, endPage := ep }
      | _, _ => none
    | _, _, _ => none
  | _ => none

/-- `_validate_schema` (api_client.py lines 289–356): the input must be a
dict whose `sections` field is a list; elements are validated
independently and dropped on failure; zero survivors fail the whole
validation.  The returned dict of the source carries nothing but the
surviving list, so the model returns the list. -/
def validate_schema (data : JValue) : Option (List Sect) :=
  match data with
  | .obj fields =>
    match JValue.dictGet fields "sections" with
    | some (.arr elems) =>
      let validated := elems.filterMap validateElement
      if validated.isEmpty then none else some validated
    | some _ => none
    | none => none
  | _ => none

/-- One stage of `parse_json_response`: the candidate is considered only
if truthy (Python `if candidate:`), then schema-validated. -/
def stageResult (candidate : Option JValue) : Option (List Sect) :=
  candidate.bind (fun v => if v.truthy then validate_schema v else none)

/-- `_attempt_direct_parse` (api_client.py lines 191–198). -/
def attempt_direct_parse (t : String) : Option JValue := PyJson.loads t

/-- `parse_json_response` (api_client.py lines 140–189): empty or
whitespace-only input short-circuits to `none`; then the four stages in
order — direct parse, code blocks, bracket scan, recovery — each
candidate schema-validated before acceptance; `none` when no stage
yields a validated object. -/
def parse_json_response (t : String) : Option (List Sect) :=
  if t.data.all isPyWs then none
  else
    (stageResult (attempt_direct_parse t)).orElse fun _ =>
      (stageResult (extract_from_code_blocks t)).orElse fun _ =>
        (stageResult (extract_by_brackets t)).orElse fun _ =>
          stageResult (attempt_recovery t)

end APIClient

namespace TextBasedClassifier

/-- Python `str.splitlines(keepends=True)`, modelled for the line
boundaries `\n`, `\r\n` and `\r` (the exotic unicode boundaries are not
modelled). -/
def splitlinesAux : List Char → List Char → List (List Char)
  | acc, [] => if acc.isEmpty then [] else [acc.reverse]
  | acc, '\r' :: '\n' :: cs => (acc.reverse ++ ['\r', '\n']) :: splitlinesAux [] cs
  | acc, '\n' :: cs => (acc.reverse ++ ['\n']) :: splitlinesAux [] cs
  | acc, '\r' :: cs => (acc.reverse ++ ['\r']) :: splitlinesAux [] cs
  | acc, c :: cs => splitlinesAux (c :: acc) cs

/-- `text.splitlines(keepends=True)` on a string. -/
def splitlinesKeepends (t : String) : List String :=
  (splitlinesAux [] t.data).map String.mk

/-- The chunk size of `_extract_with_chunks` (classifier.py line 153):
`(total_lines + num_chunks - 1) // num_chunks`, the ceiling of
`total_lines / num_chunks`. -/
def chunkSizeOf (totalLines numChunks : Nat) : Nat :=
  (totalLines + numChunks - 1) / numChunks

/-- The `for i in range(num_chunks)` loop of `_extract_with_chunks`
(classifier.py lines 157–173).  The backend is a black box whose reply
depends on the full prompt; the model scripts replies by call index
(`calls` counts the `call_text_api` calls made so far), which covers
every possible backend behaviour.  A chunk whose text is whitespace-only
is skipped without a call.  A chunk whose reply does not parse to a
validated section list aborts the strategy (`none`); otherwise the
parsed list replaces the accumulator. -/
def chunksLoop (script : Nat → String) (lines : List String)
    (chunkSize totalLines : Nat) :
    List Nat → List Sect → Nat → Option (List Sect) × Nat
  | [], current, calls => (some current, calls)
  | i :: is, current, calls =>
    let chunkText := String.join ((lines.drop (i * chunkSize)).take
      (min ((i + 1) * chunkSize) totalLines - i * chunkSize))
    if chunkText.data.all APIClient.isPyWs then
      chunksLoop script lines chunkSize totalLines is current calls
    else
      match APIClient.parse_json_response (script calls) with
      | some secs => chunksLoop script lines chunkSize totalLines is secs (calls + 1)
      | none => (none, calls + 1)

/-- `_extract_with_chunks` (classifier.py lines 149–176): split the text
into lines, process `num_chunks` chunks sequentially, then pass the
accumulated list through `fix_section_boundaries`; an empty final list is
reported as `none`.  Returns the result together with the updated call
counter. -/
def extract_with_chunks (script : Nat → String) (text : String)
    (numChunks : Nat) (calls : Nat) : Option (List Sect) × Nat :=
  let lines := splitlinesKeepends text
  let totalLines := lines.length
  let chunkSize := chunkSizeOf totalLines numChunks
  match chunksLoop script lines chunkSize totalLines (List.range numChunks) [] calls with
  | (none, c) => (none, c)
  | (some current, c) =>
    let sections := SectionProcessor.fix_section_boundaries current
    (if sections.isEmpty then none else some sections, c)

/-- The escalating chunk-count strategies of `_identify_structure`
(classifier.py line 109). -/
def chunk_strategies : List Nat := [1, 3, 5]

/-- The strategy loop of `_identify_structure` (classifier.py lines
111–127): try each chunk count in order, return the first success,
fall through to `[]` when every strategy fails. -/
def strategiesLoop (script : Nat → String) (text : String) :
    List Nat → Nat → List Sect
  | [], _ => []
  | n :: ns, calls =>
    match extract_with_chunks script text n calls with
    | (some secs, _) => secs
    | (none, c) => strategiesLoop script text ns c

/-- `_identify_structure` (classifier.py lines 105–127) from the
aggregated text on, with backend replies scripted by call index. -/
def identify_structure (script : Nat → String) (aggregatedText : String) : List Sect :=
  strategiesLoop script aggregatedText chunk_strategies 0

end TextBasedClassifier

/-! ## Specification predicates and concrete fixtures -/

/-- Adjacent output sections are strictly separated: each `current` ends
before the following `next` starts (no adjacent pair with
`current.endPage >= next.startPage`). -/
abbrev adjacentSeparated (l : List Sect) : Prop :=
  List.Chain' (fun current next => current.endPage < next.startPage) l

/-- Sorted in nondecreasing order of `startPage`. -/
abbrev sortedByStart (l : List Sect) : Prop :=
  List.Sorted (fun a b => a.startPage ≤ b.startPage) l

/-- No two sections of the list (adjacent or not) have overlapping
inclusive page intervals. -/
abbrev noTwoOverlap (l : List Sect) : Prop :=
  List.Pairwise (fun a b => a.endPage < b.startPage ∨ b.endPage < a.startPage) l

/-- Every adjacent gap is either closed (0) or larger than the 5-page
fill threshold. -/
abbrev gapClosedOrLarge (l : List Sect) : Prop :=
  List.Chain' (fun current next =>
    next.startPage - current.endPage - 1 = 0 ∨ 5 < next.startPage - current.endPage - 1) l

/-- Schema-validity of a section list, as `_validate_schema` guarantees
for its survivors: `startPage >= 1` and `endPage >= startPage`. -/
def schemaValid (l : List Sect) : Bool :=
  l.all (fun s => decide (1 ≤ s.startPage ∧ s.startPage ≤ s.endPage))

/-- A transport script: two 503 responses, then a 200 whose body decodes
to `{"result": "payload"}`. -/
def retryScript : Nat → APIClient.Outcome := fun k =>
  if k ≤ 1 then .resp 503 (.error "decode never reached") "server busy"
  else .resp 200 (.ok (.obj [("result", .str "payload")])) ""

/-- A transport script: a timeout, then a 200 with a decodable body. -/
def timeoutThenOkScript : Nat → APIClient.Outcome := fun k =>
  if k = 0 then .timeout
  else .resp 200 (.ok (.obj [("result", .str "ok")])) ""

/-- Model text whose whole-text parse fails but which carries a
json-tagged fenced block with a schema-valid object. -/
def fencedText : String :=
  "Here you go:\n```json\n\x7b\"sections\": [\x7b\"name\": \"A\", \"startPage\": 1, \"endPage\": 2\x7d]\x7d\n```\nthanks"

/-- Model text: a schema-valid object made invalid only by a trailing
comma before a closing delimiter. -/
def trailingCommaText : String :=
  "\x7b\"sections\": [\x7b\"name\": \"A\", \"startPage\": 1, \"endPage\": 2\x7d,]\x7d"

/-- Model text with no recoverable structure at all. -/
def noJsonText : String := "no structured data here"

/-- The decoded object carried by `fencedText` and recovered from
`trailingCommaText`. -/
def secObj : JValue :=
  .obj [("sections", .arr [.obj [("name", .str "A"), ("startPage", .num true 1),
    ("endPage", .num true 2)]])]

/-! ## Properties of the Boundary Reconciler -/

open SectionProcessor

/-- The head of a phase-A pass keeps the startPage of the running
current element (a skipped duplicate has the same startPage). -/
theorem phaseAGo_headStart (c : Sect) (l : List Sect) :
    (phaseAGo c l).head?.map Sect.startPage = some c.startPage := by
  induction c, l using phaseAGo.induct with
  | case1 c => simp [phaseAGo]
  | case2 c n rest h1 h2 ih =>
    rw [phaseAGo, if_pos h1, if_pos h2, ih, h2.1]
  | case3 c n rest h1 h2 mid ih =>
    rw [phaseAGo, if_pos h1, if_neg h2]
    simp
  | case4 c n rest h1 ih =>
    rw [phaseAGo, if_neg h1]
    simp

/-- Phase A leaves every adjacent pair strictly separated. -/
theorem phaseAGo_chain' (c : Sect) (l : List Sect) :
    adjacentSeparated (phaseAGo c l) := by
  induction c, l using phaseAGo.induct with
  | case1 c => simp [phaseAGo]
  | case2 c n rest h1 h2 ih =>
    rw [phaseAGo, if_pos h1, if_pos h2]
    exact ih
  | case3 c n rest h1 h2 mid ih =>
    rw [phaseAGo, if_pos h1, if_neg h2]
    show List.Chain' _
      ({ c with endPage := mid } :: phaseAGo { n with startPage := mid + 1 } rest)
    refine List.chain'_cons'.2 ⟨?_, ih⟩
    intro y hy
    have hh := phaseAGo_headStart { n with startPage := mid + 1 } rest
    rw [Option.mem_def] at hy
    rw [hy] at hh
    simp at hh
    simp only [hh]
    omega
  | case4 c n rest h1 ih =>
    rw [phaseAGo, if_neg h1]
    refine List.chain'_cons'.2 ⟨?_, ih⟩
    intro y hy
    have hh := phaseAGo_headStart n rest
    rw [Option.mem_def] at hy
    rw [hy] at hh
    simp at hh
    simp only [hh]
    omega

/-- Phase A output has no adjacent pair with
`current.endPage >= next.startPage`. -/
theorem phaseA_chain' (l : List Sect) : adjacentSeparated (phaseA l) := by
  match l with
  | [] => simp [phaseA]
  | c :: rest => exact phaseAGo_chain' c rest

/-- An already-separated list is a fixed point of phase A. -/
theorem phaseAGo_of_chain' {c : Sect} {l : List Sect}
    (hl : adjacentSeparated (c :: l)) : phaseAGo c l = c :: l := by
  induction c, l using phaseAGo.induct with
  | case1 c => rfl
  | case2 c n rest h1 h2 ih =>
    have h := (List.chain'_cons.1 hl).1
    omega
  | case3 c n rest h1 h2 mid ih =>
    have h := (List.chain'_cons.1 hl).1
    omega
  | case4 c n rest h1 ih =>
    rw [phaseAGo, if_neg h1, ih (List.chain'_cons.1 hl).2]

/-- An already-separated list is a fixed point of phase A. -/
theorem phaseA_of_chain' {l : List Sect} (hl : adjacentSeparated l) :
    phaseA l = l := by
  match l with
  | [] => rfl
  | c :: rest => exact phaseAGo_of_chain' hl

/-- Phase B never changes a startPage, so the head keeps its own. -/
theorem phaseB_headStart (l : List Sect) :
    (phaseB l).head?.map Sect.startPage = l.head?.map Sect.startPage := by
  match l with
  | [] => simp [phaseB]
  | [c] => simp [phaseB]
  | c :: n :: rest =>
    rw [phaseB]
    by_cases h : 0 < n.startPage - c.endPage - 1 ∧ n.startPage - c.endPage - 1 ≤ 5
    · rw [if_pos h]; simp
    · rw [if_neg h]; simp

/-- Phase B preserves strict separation of adjacent pairs. -/
theorem phaseB_chain' {l : List Sect} (hl : adjacentSeparated l) :
    adjacentSeparated (phaseB l) := by
  induction l with
  | nil => simp [phaseB]
  | cons c tail ih =>
    match tail with
    | [] => simp [phaseB]
    | n :: rest =>
      obtain ⟨hcn, htail⟩ := List.chain'_cons.1 hl
      rw [phaseB]
      refine List.chain'_cons'.2 ⟨?_, ih htail⟩
      intro y hy
      have hh := phaseB_headStart (n :: rest)
      rw [Option.mem_def] at hy
      rw [hy] at hh
      simp at hh
      by_cases h : 0 < n.startPage - c.endPage - 1 ∧ n.startPage - c.endPage - 1 ≤ 5
      · rw [if_pos h]; simp only [hh]; simp
      · rw [if_neg h]; simp only [hh]; omega

/-- On a separated list, phase B leaves every adjacent gap closed or
above the fill threshold. -/
theorem phaseB_gaps {l : List Sect} (hl : adjacentSeparated l) :
    gapClosedOrLarge (phaseB l) := by
  induction l with
  | nil => simp [phaseB]
  | cons c tail ih =>
    match tail with
    | [] => simp [phaseB]
    | n :: rest =>
      obtain ⟨hcn, htail⟩ := List.chain'_cons.1 hl
      rw [phaseB]
      refine List.chain'_cons'.2 ⟨?_, ih htail⟩
      intro y hy
      have hh := phaseB_headStart (n :: rest)
      rw [Option.mem_def] at hy
      rw [hy] at hh
      simp at hh
      by_cases h : 0 < n.startPage - c.endPage - 1 ∧ n.startPage - c.endPage - 1 ≤ 5
      · rw [if_pos h]; simp only [hh]; simp
      · rw [if_neg h]; simp only [hh]; omega

/-- A list whose gaps are closed or large is a fixed point of phase B. -/
theorem phaseB_of_gaps {l : List Sect} (hl : gapClosedOrLarge l) : phaseB l = l := by
  induction l with
  | nil => simp [phaseB]
  | cons c tail ih =>
    match tail with
    | [] => simp [phaseB]
    | n :: rest =>
      obtain ⟨hcn, htail⟩ := List.chain'_cons.1 hl
      rw [phaseB, if_neg (by omega), ih htail]

/-- A sorted list is a fixed point of the stable sort. -/
theorem sortSections_of_sorted {l : List Sect} (hl : sortedByStart l) :
    sortSections l = l :=
  List.Sorted.insertionSort_eq hl

/-- The reconciler output has strictly separated adjacent pairs. -/
theorem fix_chain' (l : List Sect) :
    adjacentSeparated (fix_section_boundaries l) := by
  rw [fix_section_boundaries]
  by_cases h : l.isEmpty
  · rw [if_pos h]
    match l, h with
    | [], _ => simp
  · rw [if_neg h]
    exact phaseB_chain' (phaseA_chain' _)

/-- The reconciler output has every adjacent gap closed or above the
fill threshold. -/
theorem fix_gaps (l : List Sect) :
    gapClosedOrLarge (fix_section_boundaries l) := by
  rw [fix_section_boundaries]
  by_cases h : l.isEmpty
  · rw [if_pos h]
    match l, h with
    | [], _ => simp
  · rw [if_neg h]
    exact phaseB_gaps (phaseA_chain' _)

/-- Whenever a reconciler output happens to be sorted by startPage, it is
a fixed point of the reconciler. -/
theorem fix_fixed_of_sorted {l : List Sect}
    (hs : sortedByStart (fix_section_boundaries l)) :
    fix_section_boundaries (fix_section_boundaries l) = fix_section_boundaries l := by
  have hc := fix_chain' l
  have hg := fix_gaps l
  conv_lhs => rw [fix_section_boundaries]
  by_cases h : (fix_section_boundaries l).isEmpty
  · rw [if_pos h]
  · rw [if_neg h, sortSections_of_sorted hs, phaseA_of_chain' hc, phaseB_of_gaps hg]

/-! ## Properties of the Transport Client and Response Extractor -/

open APIClient

/-- The retry loop makes at least the current number of attempts, and its
final request count equals the starting count plus the number of
remaining attempts whose outcome is an HTTP response. -/
theorem makeRequestLoop_countSpec (script : Nat → Outcome) (maxRetries : Nat) :
    ∀ (fuel attempt : Nat) (lastError : Option String) (count : Nat) (delays : List ℚ),
      attempt ≤ (makeRequestLoop script maxRetries fuel attempt lastError count delays).attempts ∧
      (makeRequestLoop script maxRetries fuel attempt lastError count delays).requestCount =
        count + countRespFrom script attempt
          ((makeRequestLoop script maxRetries fuel attempt lastError count delays).attempts - attempt) := by
  intro fuel
  induction fuel with
  | zero =>
    intro attempt lastError count delays
    simp [makeRequestLoop, countRespFrom]
  | succ fuel ih =>
    intro attempt lastError count delays
    rw [makeRequestLoop]
    cases hs : script attempt with
    | resp status body text =>
      dsimp only
      by_cases h200 : status = 200
      · rw [if_pos h200]
        match body with
        | .ok (.obj fields) =>
          simp [countRespFrom, hs, Outcome.isResp]
        | .ok .null | .ok (.bool _) | .ok (.num _ _) | .ok (.str _) | .ok (.arr _) =>
          simp [countRespFrom, hs, Outcome.isResp]
        | .error msg =>
          dsimp only
          by_cases hlast : attempt < maxRetries - 1
          · rw [if_pos hlast]
            obtain ⟨ha, hc⟩ := ih (attempt + 1) (some ("Requête échouée: " ++ msg))
              (count + 1) (delays ++ [exponential_backoff attempt])
            refine ⟨by omega, ?_⟩
            rw [hc]
            have hm : (makeRequestLoop script maxRetries fuel (attempt + 1)
                (some ("Requête échouée: " ++ msg)) (count + 1)
                (delays ++ [exponential_backoff attempt])).attempts - attempt =
                ((makeRequestLoop script maxRetries fuel (attempt + 1)
                (some ("Requête échouée: " ++ msg)) (count + 1)
                (delays ++ [exponential_backoff attempt])).attempts - (attempt + 1)) + 1 := by
              omega
            rw [hm, countRespFrom, hs]
            simp [Outcome.isResp]
            omega
          · rw [if_neg hlast]
            obtain ⟨ha, hc⟩ := ih (attempt + 1) (some ("Requête échouée: " ++ msg))
              (count + 1) delays
            refine ⟨by omega, ?_⟩
            rw [hc]
            have hm : (makeRequestLoop script maxRetries fuel (attempt + 1)
                (some ("Requête échouée: " ++ msg)) (count + 1) delays).attempts - attempt =
                ((makeRequestLoop script maxRetries fuel (attempt + 1)
                (some ("Requête échouée: " ++ msg)) (count + 1) delays).attempts - (attempt + 1)) + 1 := by
              omega
            rw [hm, countRespFrom, hs]
            simp [Outcome.isResp]
            omega
      · rw [if_neg h200]
        by_cases h5xx : status = 500 ∨ status = 502 ∨ status = 503 ∨ status = 504
        · rw [if_pos h5xx]
          by_cases hlast : attempt < maxRetries - 1
          · rw [if_pos hlast]
            obtain ⟨ha, hc⟩ := ih (attempt + 1) (some s!"Erreur serveur {status}")
              (count + 1) (delays ++ [exponential_backoff attempt])
            refine ⟨by omega, ?_⟩
            rw [hc]
            have hm : (makeRequestLoop script maxRetries fuel (attempt + 1)
                (some s!"Erreur serveur {status}") (count + 1)
                (delays ++ [exponential_backoff attempt])).attempts - attempt =
                ((makeRequestLoop script maxRetries fuel (attempt + 1)
                (some s!"Erreur serveur {status}") (count + 1)
                (delays ++ [exponential_backoff attempt])).attempts - (attempt + 1)) + 1 := by
              omega
            rw [hm, countRespFrom, hs]
            simp [Outcome.isResp]
            omega
          · rw [if_neg hlast]
            simp [countRespFrom, hs, Outcome.isResp]
        · rw [if_neg h5xx]
          simp [countRespFrom, hs, Outcome.isResp]
    | timeout =>
      dsimp only
      by_cases hlast : attempt < maxRetries - 1
      · rw [if_pos hlast]
        obtain ⟨ha, hc⟩ := ih (attempt + 1) (some "Délai d\x27attente dépassé")
          count (delays ++ [exponential_backoff attempt])
        refine ⟨by omega, ?_⟩
        rw [hc]
        have hm : (makeRequestLoop script maxRetries fuel (attempt + 1)
            (some "Délai d\x27attente dépassé") count
            (delays ++ [exponential_backoff attempt])).attempts - attempt =
            ((makeRequestLoop script maxRetries fuel (attempt + 1)
            (some "Délai d\x27attente dépassé") count
            (delays ++ [exponential_backoff attempt])).attempts - (attempt + 1)) + 1 := by
          omega
        rw [hm, countRespFrom, hs]
        simp [Outcome.isResp]
      · rw [if_neg hlast]
        obtain ⟨ha, hc⟩ := ih (attempt + 1) (some "Délai d\x27attente dépassé")
          count delays
        refine ⟨by omega, ?_⟩
        rw [hc]
        have hm : (makeRequestLoop script maxRetries fuel (attempt + 1)
            (some "Délai d\x27attente dépassé") count delays).attempts - attempt =
            ((makeRequestLoop script maxRetries fuel (attempt + 1)
            (some "Délai d\x27attente dépassé") count delays).attempts - (attempt + 1)) + 1 := by
          omega
        rw [hm, countRespFrom, hs]
        simp [Outcome.isResp]
    | reqExc msg =>
      dsimp only
      by_cases hlast : attempt < maxRetries - 1
      · rw [if_pos hlast]
        obtain ⟨ha, hc⟩ := ih (attempt + 1) (some ("Requête échouée: " ++ msg))
          count (delays ++ [exponential_backoff attempt])
        refine ⟨by omega, ?_⟩
        rw [hc]
        have hm : (makeRequestLoop script maxRetries fuel (attempt + 1)
            (some ("Requête échouée: " ++ msg)) count
            (delays ++ [exponential_backoff attempt])).attempts - attempt =
            ((makeRequestLoop script maxRetries fuel (attempt + 1)
            (some ("Requête échouée: " ++ msg)) count
            (delays ++ [exponential_backoff attempt])).attempts - (attempt + 1)) + 1 := by
          omega
        rw [hm, countRespFrom, hs]
        simp [Outcome.isResp]
      · rw [if_neg hlast]
        obtain ⟨ha, hc⟩ := ih (attempt + 1) (some ("Requête échouée: " ++ msg))
          count delays
        refine ⟨by omega, ?_⟩
        rw [hc]
        have hm : (makeRequestLoop script maxRetries fuel (attempt + 1)
            (some ("Requête échouée: " ++ msg)) count delays).attempts - attempt =
            ((makeRequestLoop script maxRetries fuel (attempt + 1)
            (some ("Requête échouée: " ++ msg)) count delays).attempts - (attempt + 1)) + 1 := by
          omega
        rw [hm, countRespFrom, hs]
        simp [Outcome.isResp]
    | otherExc msg =>
      dsimp only
      simp [countRespFrom, hs, Outcome.isResp]

/-- A candidate accepted by `_validate_schema` is a nonempty dict, hence
truthy. -/
theorem truthy_of_validate {c : JValue} {v : List Sect}
    (h : validate_schema c = some v) : c.truthy = true := by
  match c with
  | .null | .bool _ | .num _ _ | .str _ | .arr _ =>
    simp [validate_schema] at h
  | .obj fields =>
    match fields with
    | [] => simp [validate_schema, JValue.dictGet] at h
    | f :: rest => simp [JValue.truthy]

/-- When the direct parse fails and the json-tagged fenced pattern yields
a parsable group that validates, `parse_json_response` returns that
validated list (stage 2). -/
theorem parse_via_stage2 (t : String) (c : JValue) (v : List Sect)
    (hws : t.data.all isPyWs = false)
    (h1 : attempt_direct_parse t = none)
    (h2 : firstParsedGroup "```json".data true "```".data t = some c)
    (h3 : validate_schema c = some v) :
    parse_json_response t = some v := by
  rw [parse_json_response, if_neg (by simp [hws])]
  rw [h1]
  rw [extract_from_code_blocks, h2]
  simp [stageResult, Option.orElse, truthy_of_validate h3, h3]

/-- When stages 1 to 3 fail and the repair stage yields a candidate that
validates, `parse_json_response` returns that validated list (stage 4). -/
theorem parse_via_recovery (t : String) (c : JValue) (v : List Sect)
    (hws : t.data.all isPyWs = false)
    (h1 : attempt_direct_parse t = none)
    (h2 : extract_from_code_blocks t = none)
    (h3 : extract_by_brackets t = none)
    (h4 : attempt_recovery t = some c)
    (h5 : validate_schema c = some v) :
    parse_json_response t = some v := by
  rw [parse_json_response, if_neg (by simp [hws])]
  rw [h1, h2, h3, h4]
  simp [stageResult, Option.orElse, truthy_of_validate h5, h5]

/-- When no stage produces a validated object, `parse_json_response`
returns `none` (it cannot raise: it is total by construction). -/
theorem parse_none_of_all_fail (t : String)
    (h1 : stageResult (attempt_direct_parse t) = none)
    (h2 : stageResult (extract_from_code_blocks t) = none)
    (h3 : stageResult (extract_by_brackets t) = none)
    (h4 : stageResult (attempt_recovery t) = none) :
    parse_json_response t = none := by
  rw [parse_json_response]
  by_cases hws : t.data.all isPyWs
  · rw [if_pos hws]
  · rw [if_neg hws, h1, h2, h3, h4]
    rfl

open TextBasedClassifier

/-! ## The claims -/

/-- Claim C1, evaluated at the failing input: on the exact-duplicate pair
`[(A,1,10), (B,1,10)]` the code returns one section, but it is the LATER
element `B` that is kept — the duplicate branch advances past `current`
without appending it, so the earlier element is the one dropped,
contradicting both the spec and the log message of the source (which
reports dropping `next`). -/
theorem claim_C1_duplicate_eval :
    SectionProcessor.fix_section_boundaries
      [⟨"A", 1, 10⟩, ⟨"B", 1, 10⟩] = [⟨"B", 1, 10⟩] := by decide

/-- Claim C2 is false as stated: a schema-valid input whose midpoint
split inverts an interval yields a final output that is neither sorted
by startPage nor free of (non-adjacent) overlaps. -/
theorem claim_C2_counterexample :
    schemaValid [⟨"A", 1, 100⟩, ⟨"B", 2, 3⟩, ⟨"C", 4, 5⟩] = true ∧
    ¬ (sortedByStart (SectionProcessor.fix_section_boundaries
        [⟨"A", 1, 100⟩, ⟨"B", 2, 3⟩, ⟨"C", 4, 5⟩]) ∧
       noTwoOverlap (SectionProcessor.fix_section_boundaries
        [⟨"A", 1, 100⟩, ⟨"B", 2, 3⟩, ⟨"C", 4, 5⟩])) := by decide

/-- Claim C2 (amended): for every schema-valid input, every adjacent pair
of the final output is strictly separated (`current.endPage <
next.startPage`), so adjacent sections never overlap; global sortedness
and global non-overlap do not hold in general. -/
theorem claim_C2_adjacent_separation (l : List Sect)
    (_h : schemaValid l = true) :
    adjacentSeparated (SectionProcessor.fix_section_boundaries l) :=
  fix_chain' l

/-- Witness for the amended claim C2 at a concrete schema-valid input. -/
theorem claim_C2_witness :
    schemaValid [⟨"A", 1, 10⟩, ⟨"B", 8, 20⟩] = true ∧
    adjacentSeparated (SectionProcessor.fix_section_boundaries
      [⟨"A", 1, 10⟩, ⟨"B", 8, 20⟩]) :=
  ⟨by decide, claim_C2_adjacent_separation [⟨"A", 1, 10⟩, ⟨"B", 8, 20⟩] (by decide)⟩

/-- Claim C3 is false as stated: on the schema-valid input
`[(A,1,100), (B,2,3), (C,4,5)]` the reconciler is not idempotent — the
first pass leaves an unsorted list with an inverted interval, and the
second pass splits again. -/
theorem claim_C3_counterexample :
    schemaValid [⟨"A", 1, 100⟩, ⟨"B", 2, 3⟩, ⟨"C", 4, 5⟩] = true ∧
    SectionProcessor.fix_section_boundaries (SectionProcessor.fix_section_boundaries
      [⟨"A", 1, 100⟩, ⟨"B", 2, 3⟩, ⟨"C", 4, 5⟩]) ≠
    SectionProcessor.fix_section_boundaries
      [⟨"A", 1, 100⟩, ⟨"B", 2, 3⟩, ⟨"C", 4, 5⟩] := by decide

/-- Claim C3 (amended): the reconciler is idempotent on every input whose
reconciled output is sorted by startPage (which a midpoint split can
violate); on such outputs no further splits, duplicate drops or gap
fills occur. -/
theorem claim_C3_idempotent_of_sorted (l : List Sect)
    (hs : sortedByStart (SectionProcessor.fix_section_boundaries l)) :
    SectionProcessor.fix_section_boundaries (SectionProcessor.fix_section_boundaries l) =
      SectionProcessor.fix_section_boundaries l :=
  fix_fixed_of_sorted hs

/-- Witness for the amended claim C3 at a concrete input with a sorted
reconciled output. -/
theorem claim_C3_witness :
    sortedByStart (SectionProcessor.fix_section_boundaries [⟨"A", 1, 10⟩, ⟨"B", 8, 20⟩]) ∧
    SectionProcessor.fix_section_boundaries (SectionProcessor.fix_section_boundaries
      [⟨"A", 1, 10⟩, ⟨"B", 8, 20⟩]) =
    SectionProcessor.fix_section_boundaries [⟨"A", 1, 10⟩, ⟨"B", 8, 20⟩] :=
  ⟨by decide, claim_C3_idempotent_of_sorted [⟨"A", 1, 10⟩, ⟨"B", 8, 20⟩] (by decide)⟩

/-- Claim C4: for every input list, the phase-A intermediate list has no
adjacent `current`/`next` pair with `current.endPage >= next.startPage`. -/
theorem claim_C4_phaseA_separation (sections : List Sect) :
    List.Chain' (fun current next => ¬ next.startPage ≤ current.endPage)
      (SectionProcessor.phaseA (SectionProcessor.sortSections sections)) :=
  (phaseA_chain' (SectionProcessor.sortSections sections)).imp (fun h => by omega)

/-- Claim C5: an overlapping, non-duplicate adjacent sorted pair is split
at `midpoint = floor((current.endPage + next.startPage) / 2)`: `current`
ends at the midpoint, `next` starts right after it, names unchanged; in
particular `[(A,1,10), (B,8,20)]` reconciles to `[(A,1,9), (B,10,20)]`. -/
theorem claim_C5_overlap_split (c n : Sect) (rest : List Sect)
    (hov : n.startPage ≤ c.endPage)
    (hnd : ¬ (c.startPage = n.startPage ∧ c.endPage = n.endPage)) :
    SectionProcessor.phaseAGo c (n :: rest) =
      { c with endPage := Int.fdiv (c.endPage + n.startPage) 2 } ::
        SectionProcessor.phaseAGo
          { n with startPage := Int.fdiv (c.endPage + n.startPage) 2 + 1 } rest ∧
    SectionProcessor.fix_section_boundaries [⟨"A", 1, 10⟩, ⟨"B", 8, 20⟩] =
      [⟨"A", 1, 9⟩, ⟨"B", 10, 20⟩] := by
  refine ⟨?_, by decide⟩
  rw [SectionProcessor.phaseAGo, if_pos hov, if_neg hnd]

/-- Witness for claim C5 at the concrete overlapping pair. -/
theorem claim_C5_witness :
    SectionProcessor.phaseAGo ⟨"A", 1, 10⟩ [⟨"B", 8, 20⟩] =
      { Sect.mk "A" 1 10 with endPage := Int.fdiv (10 + 8) 2 } ::
        SectionProcessor.phaseAGo
          { Sect.mk "B" 8 20 with startPage := Int.fdiv (10 + 8) 2 + 1 } [] ∧
    SectionProcessor.fix_section_boundaries [⟨"A", 1, 10⟩, ⟨"B", 8, 20⟩] =
      [⟨"A", 1, 9⟩, ⟨"B", 10, 20⟩] :=
  claim_C5_overlap_split ⟨"A", 1, 10⟩ ⟨"B", 8, 20⟩ [] (by decide) (by decide)

/-- Claim C6: in phase B, an adjacent pair with gap
`next.startPage - current.endPage - 1` in `(0, 5]` has `current`
extended to `next.startPage - 1`, and a gap above 5 is left unchanged;
in particular a gap of 5 is absorbed and a gap of 6 is kept. -/
theorem claim_C6_gap_fill (c n : Sect) (rest : List Sect) :
    (0 < n.startPage - c.endPage - 1 → n.startPage - c.endPage - 1 ≤ 5 →
      SectionProcessor.phaseB (c :: n :: rest) =
        { c with endPage := n.startPage - 1 } :: SectionProcessor.phaseB (n :: rest)) ∧
    (5 < n.startPage - c.endPage - 1 →
      SectionProcessor.phaseB (c :: n :: rest) = c :: SectionProcessor.phaseB (n :: rest)) ∧
    SectionProcessor.fix_section_boundaries [⟨"A", 1, 10⟩, ⟨"B", 16, 30⟩] =
      [⟨"A", 1, 15⟩, ⟨"B", 16, 30⟩] ∧
    SectionProcessor.fix_section_boundaries [⟨"A", 1, 10⟩, ⟨"B", 17, 30⟩] =
      [⟨"A", 1, 10⟩, ⟨"B", 17, 30⟩] := by
  refine ⟨?_, ?_, by decide, by decide⟩
  · intro h1 h2
    rw [SectionProcessor.phaseB, if_pos ⟨h1, h2⟩]
  · intro h
    rw [SectionProcessor.phaseB, if_neg (by omega)]

/-- Witness for claim C6 at a gap of 5 (absorbed) and a gap of 6
(unchanged). -/
theorem claim_C6_witness :
    SectionProcessor.phaseB [⟨"A", 1, 10⟩, ⟨"B", 16, 30⟩] =
      { Sect.mk "A" 1 10 with endPage := 16 - 1 } ::
        SectionProcessor.phaseB [⟨"B", 16, 30⟩] ∧
    SectionProcessor.phaseB [⟨"A", 1, 10⟩, ⟨"B", 17, 30⟩] =
      ⟨"A", 1, 10⟩ :: SectionProcessor.phaseB [⟨"B", 17, 30⟩] :=
  ⟨(claim_C6_gap_fill ⟨"A", 1, 10⟩ ⟨"B", 16, 30⟩ []).1 (by decide) (by decide),
   (claim_C6_gap_fill ⟨"A", 1, 10⟩ ⟨"B", 17, 30⟩ []).2.1 (by decide)⟩

/-- Claim C7: with `maxRetries = 3` and a script of two 503 responses
then a 200 with body `{"result": "payload"}`, the send makes exactly 3
attempts, returns the decoded result field, increments the request
counter by exactly 3, and sleeps the backoff of retry 0 then of retry 1,
with no delay after the final attempt; the backoff before retry `k` is
`1.5 * 2 ^ k` seconds. -/
theorem claim_C7_retry_sequence :
    make_request 3 retryScript =
      { retVal := "payload", attempts := 3, requestCount := 3,
        delays := [exponential_backoff 0, exponential_backoff 1] } ∧
    ∀ k, exponential_backoff k = 3 / 2 * 2 ^ k :=
  ⟨rfl, fun _ => rfl⟩

set_option maxRecDepth 8000 in
/-- Claim C8: (1) when the whole-text parse fails but a json-tagged
fenced block yields a parsable candidate that passes schema validation,
`parse_json_response` returns that validated object via stage 2; (2) when
stages 1 to 3 all fail and the repair stage recovers a candidate that
validates — as happens for an object text broken only by a trailing
comma — the repaired object is returned; (3) when no stage produces a
validated object the function returns `none` rather than raising (it is
total by construction). -/
theorem claim_C8_extraction_stages :
    (∀ (t : String) (c : JValue) (v : List Sect),
      t.data.all isPyWs = false →
      attempt_direct_parse t = none →
      firstParsedGroup "```json".data true "```".data t = some c →
      validate_schema c = some v →
      parse_json_response t = some v) ∧
    (∀ (t : String) (c : JValue) (v : List Sect),
      t.data.all isPyWs = false →
      attempt_direct_parse t = none →
      extract_from_code_blocks t = none →
      extract_by_brackets t = none →
      attempt_recovery t = some c →
      validate_schema c = some v →
      parse_json_response t = some v) ∧
    (∀ t : String,
      stageResult (attempt_direct_parse t) = none →
      stageResult (extract_from_code_blocks t) = none →
      stageResult (extract_by_brackets t) = none →
      stageResult (attempt_recovery t) = none →
      parse_json_response t = none) :=
  ⟨parse_via_stage2, parse_via_recovery, parse_none_of_all_fail⟩

set_option maxRecDepth 8000 in
/-- Witness for claim C8: the fenced text is accepted through stage 2
although its direct parse fails; the trailing-comma text fails stages
1–3 and is recovered by the repair stage; the unstructured text yields
`none`. -/
theorem claim_C8_witness :
    parse_json_response fencedText = some [⟨"A", 1, 2⟩] ∧
    (attempt_direct_parse trailingCommaText = none ∧
     extract_from_code_blocks trailingCommaText = none ∧
     extract_by_brackets trailingCommaText = none ∧
     parse_json_response trailingCommaText = some [⟨"A", 1, 2⟩]) ∧
    parse_json_response noJsonText = none :=
  ⟨claim_C8_extraction_stages.1 fencedText secObj [⟨"A", 1, 2⟩] rfl rfl rfl rfl,
   ⟨rfl, rfl, rfl,
    claim_C8_extraction_stages.2.1 trailingCommaText secObj [⟨"A", 1, 2⟩]
      rfl rfl rfl rfl rfl rfl⟩,
   claim_C8_extraction_stages.2.2 noJsonText rfl rfl rfl rfl⟩

/-- Claim C9: the Structure Resolver tries the chunk counts `[1, 3, 5]`
in that order, with chunk size the ceiling of `totalLines / chunkCount`;
a failed 1-chunk strategy falls through to the 3-chunk strategy; the
first strategy that yields a validated non-empty reconciled list is
returned without attempting later ones; and when every strategy fails
the resolver returns `[]` (it is total, so it cannot raise). -/
theorem claim_C9_strategy_escalation :
    chunk_strategies = [1, 3, 5] ∧
    (∀ totalLines numChunks, chunkSizeOf totalLines numChunks = totalLines ⌈/⌉ numChunks) ∧
    (∀ (script : Nat → String) (text : String) (c1 : Nat),
      extract_with_chunks script text 1 0 = (none, c1) →
      identify_structure script text = strategiesLoop script text [3, 5] c1) ∧
    (∀ (script : Nat → String) (text : String) (secs : List Sect) (c1 : Nat),
      extract_with_chunks script text 1 0 = (some secs, c1) →
      identify_structure script text = secs) ∧
    (∀ (script : Nat → String) (text : String) (c1 c2 c3 : Nat),
      extract_with_chunks script text 1 0 = (none, c1) →
      extract_with_chunks script text 3 c1 = (none, c2) →
      extract_with_chunks script text 5 c2 = (none, c3) →
      identify_structure script text = []) := by
  refine ⟨rfl, fun _ _ => rfl, ?_, ?_, ?_⟩
  · intro script text c1 h
    rw [identify_structure, chunk_strategies]
    rw [strategiesLoop.eq_def]
    dsimp only
    rw [h]
  · intro script text secs c1 h
    rw [identify_structure, chunk_strategies]
    rw [strategiesLoop.eq_def]
    dsimp only
    rw [h]
  · intro script text c1 c2 c3 h1 h2 h3
    rw [identify_structure, chunk_strategies]
    rw [strategiesLoop.eq_def]
    dsimp only
    rw [h1]
    dsimp only
    rw [strategiesLoop.eq_def]
    dsimp only
    rw [h2]
    dsimp only
    rw [strategiesLoop.eq_def]
    dsimp only
    rw [h3]
    dsimp only
    rw [strategiesLoop.eq_def]

set_option maxRecDepth 8000 in
/-- Witness for claim C9 at a backend that always answers unparsable
text, over the one-line aggregated text "x": strategy 1 fails after its
single call, the resolver escalates to strategy 3, and after all three
strategies fail it returns the empty list. -/
theorem claim_C9_witness :
    identify_structure (fun _ => "garbage") "x" =
      strategiesLoop (fun _ => "garbage") "x" [3, 5] 1 ∧
    identify_structure (fun _ => "garbage") "x" = [] :=
  ⟨claim_C9_strategy_escalation.2.2.1 (fun _ => "garbage") "x" 1 (by decide),
   claim_C9_strategy_escalation.2.2.2.2 (fun _ => "garbage") "x" 1 2 3
     (by decide) (by decide) (by decide)⟩

/-- Claim C10: over one send operation the request counter grows by
exactly the number of attempts whose outcome is an HTTP response of any
status — attempts ending in a timeout or connection-level failure do not
count — and this can be strictly below the number of attempts made, as
in the timeout-then-200 script (2 attempts, counter +1). -/
theorem claim_C10_counter_per_response :
    (∀ (script : Nat → Outcome) (maxRetries : Nat),
      (make_request maxRetries script).requestCount =
        countRespFrom script 0 (make_request maxRetries script).attempts) ∧
    (make_request 3 timeoutThenOkScript).attempts = 2 ∧
    (make_request 3 timeoutThenOkScript).requestCount = 1 := by
  refine ⟨?_, by decide, by decide⟩
  intro script maxRetries
  have h := (makeRequestLoop_countSpec script maxRetries maxRetries 0 none 0 []).2
  simpa [make_request] using h
